import Mathlib

set_option maxRecDepth 8000
set_option maxHeartbeats 1000000

/-
  Shallow embedding of the solomon-vrptw core (src/location.rs, src/route.rs,
  src/vrp.rs, src/vrp_result.rs, src/heuristics/nearest_neighbor.rs,
  src/heuristics/aco.rs).

  Modelling conventions:
  * `f32` values are modelled as exact rationals (`ℚ`).  The only irrational
    operation in the code is `f32::sqrt`, applied exclusively to a `u16`
    cast to `f32` inside `Location::distance_to`.  It is abstracted as a
    parameter `sq : ℕ → ℚ`; the properties assumed of it in theorems
    (exactness on perfect squares, `sq n < m` whenever `n < m * m`) hold for
    the correctly rounded `f32` square root on the `u16` range.
  * `u16` arithmetic wraps modulo 2^16 (release-profile semantics), written
    with explicit `% 65536`.  `u16::saturating_sub` is `Nat` subtraction.
  * Fallible code (Rust panics: out-of-bounds indexing, `unwrap` on `None`)
    is modelled with `Option`, `none` marking a panic.
  * `HashMap<(Location, Location), f32>` is modelled as a total function
    `Location × Location → ℚ`; every key the algorithms read is initialised
    beforehand by `set_pheromones`, so totality is harmless.
  * `rand::thread_rng` draws are modelled by an explicit stream
    `rng : ℕ → ℚ` of unit-interval values together with a position counter
    threaded through the computation; `WeightedIndex::sample` consumes one
    stream value, scaled by the total weight, and picks the first index whose
    cumulative weight exceeds it.
-/

namespace Solomon

/-- Mirror of `struct Location` (src/location.rs).  The seven `u16` fields are
modelled as naturals; all concrete instances in this file keep them below
2^16. -/
structure Location where
  id : ℕ
  x : ℕ
  y : ℕ
  demand : ℕ
  ready_time : ℕ
  due_date : ℕ
  service_time : ℕ
deriving DecidableEq, Repr

/-- Mirror of `Location::distance_to`: both coordinate differences are squared
in `u16` arithmetic (wrapping modulo 2^16 in release builds) and summed in
`u16` arithmetic before the cast to `f32` and the square root `sq`. -/
def distance_to (sq : ℕ → ℚ) (self other : Location) : ℚ :=
  sq ((Nat.dist other.x self.x ^ 2 % 65536 + Nat.dist other.y self.y ^ 2 % 65536) % 65536)

/-- Mirror of `Location::cost_to`: cumulative cost after travelling to
`other`, waiting for its ready time and serving it. -/
def cost_to (sq : ℕ → ℚ) (self other : Location) (current_cost : ℚ) : ℚ :=
  let current_cost := current_cost + distance_to sq self other
  current_cost + max ((other.ready_time : ℚ) - current_cost) 0 + (other.service_time : ℚ)

/-- Modelled from the spec: `Location::cost_to_deliver` is called by
`Route::total_cost`, `Route::total_cost_with` and `Vrp::construct_routes` but
its definition is missing from the sources under src/.  Spec §4.1 defines the
cumulative arrival cost as
`cost_at_a + distance(a,b) + max(0, ready_time(b) − (cost_at_a + distance(a,b))) + service_time(b)`,
identical to `Location::cost_to`. -/
def cost_to_deliver (sq : ℕ → ℚ) (self other : Location) (current_cost : ℚ) : ℚ :=
  let current_cost := current_cost + distance_to sq self other
  current_cost + max ((other.ready_time : ℚ) - current_cost) 0 + (other.service_time : ℚ)

/-- Modelled from the spec: `Location::cost_to_delivery_window` is called by
`Route::total_cost_no_service_time` and by the desirability scoring in
`select_next_location` but its definition is missing from the sources under
src/.  The comments in src/route.rs describe it as the cumulative cost
"(distance + waiting time)", i.e. the §4.1 arrival cost without the
service-time term (spec §9 names these with/without-service-time variants). -/
def cost_to_delivery_window (sq : ℕ → ℚ) (self other : Location) (current_cost : ℚ) : ℚ :=
  let current_cost := current_cost + distance_to sq self other
  current_cost + max ((other.ready_time : ℚ) - current_cost) 0

/-- Mirror of `Location::find_reachable`: keep the candidates whose due date
is not exceeded on arrival (before waiting and service time). -/
def find_reachable (sq : ℕ → ℚ) (self : Location) (others : List Location)
    (current_cost : ℚ) : List Location :=
  others.filter (fun customer =>
    (customer.due_date : ℚ) ≥ distance_to sq self customer + current_cost)

/-- Mirror of `Location::find_deliverable`: reachable candidates whose demand
fits in the remaining capacity. -/
def find_deliverable (sq : ℕ → ℚ) (self : Location) (others : List Location)
    (current_cost : ℚ) (remaining_capacity : ℕ) : List Location :=
  (find_reachable sq self others current_cost).filter
    (fun customer => customer.demand ≤ remaining_capacity)

/-- Model of `f32::partial_cmp(..).unwrap_or(Ordering::Equal)` on exact
rationals (no NaN, so the comparison is total). -/
def cmpQ (a b : ℚ) : Ordering :=
  if a < b then Ordering.lt else if b < a then Ordering.gt else Ordering.eq

/-- Model of Rust `Iterator::min_by`: the minimum with respect to `cmp`,
with the last of equally minimal elements returned. -/
def rustMinBy (cmp : Location → Location → Ordering) (l : List Location) : Option Location :=
  l.foldl
    (fun acc x =>
      match acc with
      | none => some x
      | some m => if cmp x m = Ordering.gt then some m else some x)
    none

/-- Mirror of `Location::find_cheapest_deliverable`: the deliverable candidate
of minimal `cost_to`, its resulting cumulative cost, and the candidate list
with every copy of the chosen candidate filtered out. -/
def find_cheapest_deliverable (sq : ℕ → ℚ) (self : Location) (others : List Location)
    (current_cost : ℚ) (remaining_capacity : ℕ) :
    Option (Location × ℚ × List Location) :=
  let deliverable := find_deliverable sq self others current_cost remaining_capacity
  match rustMinBy
      (fun a b => cmpQ (cost_to sq self a current_cost) (cost_to sq self b current_cost))
      deliverable with
  | none => none
  | some cheapest =>
      some (cheapest, cost_to sq self cheapest current_cost,
        others.filter (fun location => location ≠ cheapest))

/-- Mirror of `struct Route` (src/route.rs): an ordered customer list between
an implicit leading and trailing depot. -/
structure Route where
  warehouse : Location
  customers : List Location
deriving DecidableEq, Repr

/-- The visit sequence indexed by `Route`'s `Index` impl: warehouse, the
customers in order, warehouse again. -/
def Route.stops (r : Route) : List Location :=
  r.warehouse :: r.customers ++ [r.warehouse]

/-- Mirror of `Route::total_distance`: sum of the distances of consecutive
stops. -/
def Route.total_distance (sq : ℕ → ℚ) (r : Route) : ℚ :=
  ((r.stops.zip r.stops.tail).map (fun p => distance_to sq p.1 p.2)).sum

/-- Mirror of `Route::total_cost`: fold `cost_to_deliver` over consecutive
stops starting from cost 0. -/
def Route.total_cost (sq : ℕ → ℚ) (r : Route) : ℚ :=
  (r.stops.zip r.stops.tail).foldl (fun cost p => cost_to_deliver sq p.1 p.2 cost) 0

/-- Mirror of `Route::total_cost_with`: the cost of a separate customer array,
except that the final leg reads `self.customers[customers.len() - 1]`, an
index into the route's own (shorter) customer list; the out-of-bounds panic is
modelled by `none`. -/
def Route.total_cost_with (sq : ℕ → ℚ) (r : Route) (customers : List Location) : Option ℚ :=
  match customers with
  | [] => none
  | c0 :: _ =>
      let cost := cost_to_deliver sq r.warehouse c0 0
      let cost := (customers.zip customers.tail).foldl
        (fun cost p => cost_to_deliver sq p.1 p.2 cost) cost
      (r.customers[customers.length - 1]?).map
        (fun lastc => cost_to_deliver sq lastc r.warehouse cost)

/-- Mirror of `Route::total_cost_no_service_time`: fold
`cost_to_delivery_window` over consecutive stops. -/
def Route.total_cost_no_service_time (sq : ℕ → ℚ) (r : Route) : ℚ :=
  (r.stops.zip r.stops.tail).foldl (fun cost p => cost_to_delivery_window sq p.1 p.2 cost) 0

/-- Mirror of `Route::total_demand`: `u16` sum of the customer demands
(wrapping). -/
def Route.total_demand (r : Route) : ℕ :=
  r.customers.foldl (fun acc c => (acc + c.demand) % 65536) 0

/-- Mirror of `Route::total_demand_with`. -/
def Route.total_demand_with (customers : List Location) : ℕ :=
  customers.foldl (fun acc c => (acc + c.demand) % 65536) 0

/-- The loop body of `Route::is_valid`/`is_valid_with`: at each customer the
running cost (already produced by `cost_to`, hence inclusive of that
customer's waiting and service time) is checked against the due date, then
waiting time (always zero at this point) and service time are added once
more, then the cost to the next stop is taken with `cost_to`. -/
def is_valid_loop (sq : ℕ → ℚ) (w : Location) : ℚ → Location → List Location → Bool
  | cost, customer, rest =>
    if cost > (customer.due_date : ℚ) then false
    else
      let cost := cost + max ((customer.ready_time : ℚ) - cost) 0
      let cost := cost + (customer.service_time : ℚ)
      match rest with
      | [] =>
          if cost_to sq customer w cost > (w.due_date : ℚ) then false else true
      | next :: rest' => is_valid_loop sq w (cost_to sq customer next cost) next rest'

/-- Mirror of `Route::is_valid`. -/
def Route.is_valid (sq : ℕ → ℚ) (r : Route) (capacity : ℕ) : Bool :=
  if Route.total_demand r > capacity then false
  else
    match r.customers with
    | [] => true
    | c0 :: rest => is_valid_loop sq r.warehouse (cost_to sq r.warehouse c0 0) c0 rest

/-- Mirror of `Route::is_valid_with`: the same check over a separate customer
array. -/
def Route.is_valid_with (sq : ℕ → ℚ) (r : Route) (customers : List Location) (capacity : ℕ) : Bool :=
  if Route.total_demand_with customers > capacity then false
  else
    match customers with
    | [] => true
    | c0 :: rest => is_valid_loop sq r.warehouse (cost_to sq r.warehouse c0 0) c0 rest

/-- The loop of `Route::try_insert` over candidate indices, carrying the
running minimum (`none` models the `f32::INFINITY` sentinel).  The outer
`Option` is the panic monad: `none` marks the out-of-bounds panic raised by
`total_cost_with` on the lengthened customer array. -/
def try_insert_loop (sq : ℕ → ℚ) (r : Route) (customer : Location) (capacity : ℕ) :
    List ℕ → Option (ℚ × ℕ) → Option (Option (ℚ × ℕ))
  | [], acc =>
      match acc with
      | none => some none
      | some (m, i) => some (some (m, i % 65536))
  | i :: rest, acc =>
      let new_customers := r.customers.take i ++ customer :: r.customers.drop i
      if Route.is_valid_with sq r new_customers capacity = false then
        try_insert_loop sq r customer capacity rest acc
      else
        match Route.total_cost_with sq r new_customers with
        | none => none
        | some cost =>
            match acc with
            | none => try_insert_loop sq r customer capacity rest (some (cost, i))
            | some (m, mi) =>
                if cost < m then try_insert_loop sq r customer capacity rest (some (cost, i))
                else try_insert_loop sq r customer capacity rest (some (m, mi))

/-- Mirror of `Route::try_insert`: evaluates the insertion positions
`0 .. customers.len()` (exclusive), returning the minimal-cost valid one;
the outer `Option` is `none` when the code panics. -/
def Route.try_insert (sq : ℕ → ℚ) (r : Route) (customer : Location) (capacity : ℕ) :
    Option (Option (ℚ × ℕ)) :=
  try_insert_loop sq r customer capacity (List.range r.customers.length) none

/-- Mirror of `struct Vrp` (src/vrp.rs). -/
structure Vrp where
  customers : List Location
  warehouse : Location
  n_vehicles : ℕ
  vehicle_capacity : ℕ
  routes : List Route
  heuristic_cost_history : Option (List ℚ)
deriving DecidableEq, Repr

/-- Mirror of `Vrp::total_cost`: the sum of the per-route total costs. -/
def Vrp.total_cost (sq : ℕ → ℚ) (vrp : Vrp) : ℚ :=
  (vrp.routes.map (Route.total_cost sq)).sum

/-- Mirror of `Vrp::total_cost_with`: the sum of the per-route total costs of
a separate route list. -/
def Vrp.total_cost_with (sq : ℕ → ℚ) (routes : List Route) : ℚ :=
  (routes.map (Route.total_cost sq)).sum

/-- Mirror of `Vrp::total_cost_no_service_time_with`. -/
def Vrp.total_cost_no_service_time_with (sq : ℕ → ℚ) (routes : List Route) : ℚ :=
  (routes.map (Route.total_cost_no_service_time sq)).sum

/-- Mirror of `struct VrpResult` (src/vrp_result.rs). -/
structure VrpResult where
  n_vehicles : ℕ
  vehicle_capacity : ℕ
  routes : List Route
  coord_bounds : ℤ × ℤ × ℤ × ℤ
  heuristic_cost_history : Option (List ℚ)
deriving DecidableEq, Repr

/-- Minimum of a list of integers, with the head as the seed (the iterators
in `Vrp::get_coord_bounds` are never empty because the warehouse is always
included, so the `unwrap` cannot fail; the `[]` branch is dead). -/
def listMinZ : List ℤ → ℤ
  | [] => 0
  | h :: t => t.foldl min h

/-- Maximum of a list of integers, with the head as the seed. -/
def listMaxZ : List ℤ → ℤ
  | [] => 0
  | h :: t => t.foldl max h

/-- Mirror of `Vrp::get_coord_bounds`: the coordinate extremes over warehouse
and customers, widened by 10 on each side. -/
def get_coord_bounds (vrp : Vrp) : ℤ × ℤ × ℤ × ℤ :=
  let xs : List ℤ :=
    (vrp.warehouse.x : ℤ) :: vrp.customers.map (fun c => (c.x : ℤ)) ++ [(vrp.warehouse.x : ℤ)]
  let ys : List ℤ :=
    (vrp.warehouse.y : ℤ) :: vrp.customers.map (fun c => (c.y : ℤ)) ++ [(vrp.warehouse.y : ℤ)]
  (listMinZ xs - 10, listMaxZ xs + 10, listMinZ ys - 10, listMaxZ ys + 10)

/-- Modelled from the spec: `Vrp::to_result` is called by
`VrpResult::from_vrp` but its definition is missing from the sources under
src/.  Per spec §2 the solution record is an immutable snapshot of the
instance's fleet parameters, routes and optional cost history, plus the
coordinate bounds consumed by reporting. -/
def Vrp.to_result (vrp : Vrp) : VrpResult :=
  { n_vehicles := vrp.n_vehicles
    vehicle_capacity := vrp.vehicle_capacity
    routes := vrp.routes
    coord_bounds := get_coord_bounds vrp
    heuristic_cost_history := vrp.heuristic_cost_history }

/-- Mirror of `VrpResult::from_vrp`: `to_result` with the routes and history
overridden. -/
def from_vrp (vrp : Vrp) (routes : List Route) (heuristic_cost_history : Option (List ℚ)) :
    VrpResult :=
  { vrp.to_result with routes := routes, heuristic_cost_history := heuristic_cost_history }

/-- The inner loop of `Vrp::nearest_neighbour_heuristic`: repeatedly append
the cheapest deliverable customer.  The returned cumulative cost follows the
source's `cost += additional_cost`, where `additional_cost` is the full
cumulative cost returned by `find_cheapest_deliverable` (so the running cost
double-counts).  `fuel` bounds the iterations; it is called with
`customers.length + 1`, which the loop cannot exhaust since every successful
step removes the chosen customer. -/
def nn_build_route (sq : ℕ → ℚ) (capacity : ℕ) :
    ℕ → Location → ℚ → ℕ → List Location → List Location → List Location × List Location
  | 0, _, _, _, customers, routeCs => (routeCs, customers)
  | fuel + 1, current, cost, demand, customers, routeCs =>
      match find_cheapest_deliverable sq current customers cost (capacity - demand) with
      | none => (routeCs, customers)
      | some (next, additional_cost, rest) =>
          nn_build_route sq capacity fuel next (cost + additional_cost)
            ((demand + next.demand) % 65536) rest (routeCs ++ [next])

/-- The outer loop of `Vrp::nearest_neighbour_heuristic`: build routes until
no customer remains.  A pass that assigns no customer leaves the state
unchanged, so the Rust `while` loop would repeat it forever; that divergence
is modelled by `none`.  `fuel = customers.length + 1` covers every
terminating run since each productive pass removes at least one customer. -/
def nn_loop (sq : ℕ → ℚ) (warehouse : Location) (capacity : ℕ) :
    ℕ → List Location → List Route → Option (List Route)
  | 0, customers, routes => if customers = [] then some routes else none
  | fuel + 1, customers, routes =>
      if customers = [] then some routes
      else
        let result := nn_build_route sq capacity (customers.length + 1) warehouse 0
          warehouse.demand customers []
        if result.2.length < customers.length then
          nn_loop sq warehouse capacity fuel result.2 (routes ++ [⟨warehouse, result.1⟩])
        else none

/-- Mirror of `Vrp::nearest_neighbour_heuristic` (src/heuristics/
nearest_neighbor.rs).  The `&self` receiver is read-only, so the embedding is
a pure function from the instance to the result record; `none` models the
divergence of the Rust `while` loop when some customer can never be
assigned. -/
def nearest_neighbour_heuristic (sq : ℕ → ℚ) (vrp : Vrp) : Option VrpResult :=
  (nn_loop sq vrp.warehouse vrp.vehicle_capacity (vrp.customers.length + 1)
      vrp.customers []).map
    (fun routes => from_vrp vrp routes none)

/-- Mirror of `struct AcoParams` (src/heuristics/aco.rs); the `u16` fields are
naturals, `rho` and `q0` are `f32` parameters modelled as rationals. -/
structure AcoParams where
  n_ants : ℕ
  max_iter : ℕ
  max_r : ℕ
  alpha : ℕ
  beta : ℕ
  rho : ℚ
  q0 : ℚ
deriving DecidableEq, Repr

/-- Model of `HashMap<(Location, Location), f32>` as a total map; see the
header comment. -/
def Pheromones : Type := Location × Location → ℚ

/-- The directed edges of a route as traversed by `set_pheromones` and
`update_pheromones`: warehouse to first customer, consecutive customers, last
customer back to the warehouse.  For a route without customers the code
panics on `customers.first().unwrap()`, modelled by `none`. -/
def route_edges (r : Route) : Option (List (Location × Location)) :=
  match r.customers with
  | [] => none
  | c0 :: rest => some ((r.warehouse, c0) :: chain c0 rest)
where
  /-- Consecutive customer edges followed by the closing edge to the
  warehouse. -/
  chain : Location → List Location → List (Location × Location)
    | c, [] => [(c, r.warehouse)]
    | c, next :: rest => (c, next) :: chain next rest

/-- The directed edges of every route of every listed solution, with the
edges of a customer-less route counted as absent (the code would panic on
such a route before reading any of its edges). -/
def used_edges (solutions : List (List Route)) : List (Location × Location) :=
  (solutions.map (fun solution =>
    (solution.map (fun r => (route_edges r).getD [])).flatten)).flatten

/-- One `*pheromone += deposit` update of `set_pheromones`. -/
def bump_edge (ph : Pheromones) (e : Location × Location) (deposit : ℚ) : Pheromones :=
  fun p => if p = e then ph e + deposit else ph p

/-- One `*pheromone = (1.0 - rho) * *pheromone + deposit` update of
`update_pheromones`. -/
def decay_bump_edge (ph : Pheromones) (e : Location × Location) (rho deposit : ℚ) :
    Pheromones :=
  fun p => if p = e then (1 - rho) * ph e + deposit else ph p

/-- Apply `decay_bump_edge` with a fixed deposit to every edge of every route
in a list, in order; `none` when some route has no customers (the panic in
`update_pheromones`). -/
def decay_bump_routes (rho deposit : ℚ) : List Route → Pheromones → Option Pheromones
  | [], ph => some ph
  | r :: rs, ph =>
      match route_edges r with
      | none => none
      | some es =>
          decay_bump_routes rho deposit rs
            (es.foldl (fun p e => decay_bump_edge p e rho deposit) ph)

/-- Apply `bump_edge` with a fixed deposit to every edge of every route in a
list, in order; `none` when some route has no customers (the panic in the
reward branch of `set_pheromones`). -/
def bump_routes (deposit : ℚ) : List Route → Pheromones → Option Pheromones
  | [], ph => some ph
  | r :: rs, ph =>
      match route_edges r with
      | none => none
      | some es =>
          bump_routes deposit rs (es.foldl (fun p e => bump_edge p e deposit) ph)

/-- Mirror of `Vrp::set_pheromones`: write `pheromone_amt` to every ordered
pair of distinct locations (customers plus warehouse), then, when
`reward_existing_routes` is set and the instance has routes, add
`1 / total_cost` to every edge used by the instance's routes. -/
def set_pheromones (sq : ℕ → ℚ) (vrp : Vrp) (pheromone_amt : ℚ) (ph : Pheromones)
    (reward_existing_routes : Bool) : Option Pheromones :=
  let locations := vrp.customers ++ [vrp.warehouse]
  let ph : Pheromones := fun p =>
    if p.1 ≠ p.2 ∧ p.1 ∈ locations ∧ p.2 ∈ locations then pheromone_amt else ph p
  if reward_existing_routes ∧ vrp.routes ≠ [] then
    bump_routes (1 / Vrp.total_cost sq vrp) vrp.routes ph
  else some ph

/-- The second phase of `Vrp::update_pheromones` (the loop over the trial
solutions): deposit `deposit` with decay on every edge of every route of
every listed solution, in order. -/
def penalize_solutions (rho deposit : ℚ) : List (List Route) → Pheromones → Option Pheromones
  | [], ph => some ph
  | solution :: rest, ph =>
      match decay_bump_routes rho deposit solution ph with
      | none => none
      | some ph => penalize_solutions rho deposit rest ph

/-- Mirror of `Vrp::update_pheromones`: every edge of the best-known solution
gets `p ← (1 − rho)·p + rho / total_cost_no_service_time(best)`, then every
edge of every trial solution gets `p ← (1 − rho)·p + rho · pheromone_amt`
(the penalty deposit `params.rho * pheromone_amt` recomputed per solution is
constant).  There is no pass over the remaining entries. -/
def update_pheromones (sq : ℕ → ℚ) (pheromone_amt : ℚ) (best_solution : List Route)
    (solutions : List (List Route)) (params : AcoParams) (ph : Pheromones) :
    Option Pheromones :=
  let reward_deposit := params.rho / Vrp.total_cost_no_service_time_with sq best_solution
  match decay_bump_routes params.rho reward_deposit best_solution ph with
  | none => none
  | some ph => penalize_solutions params.rho (params.rho * pheromone_amt) solutions ph

/-- The pheromone baseline computed at the start of `Vrp::aco_heuristic`:
the constant `1/4500` when the instance has no routes, otherwise
`1 / total_cost * customers.len()`. -/
def pheromon_amt (sq : ℕ → ℚ) (vrp : Vrp) : ℚ :=
  if vrp.routes = [] then 1 / 4500
  else 1 / Vrp.total_cost sq vrp * (vrp.customers.length : ℚ)

/-- The probability weight computed for one deliverable candidate inside
`select_next_location`: `pheromone^alpha * desirability^beta + 1e-6` where
`desirability` is the reciprocal of `cost_to_delivery_window` (no clamping of
the reciprocal's argument). -/
def probability_weight (sq : ℕ → ℚ) (params : AcoParams) (ph : Pheromones)
    (current next : Location) (current_cost : ℚ) : ℚ :=
  ph (current, next) ^ params.alpha *
    (1 / cost_to_delivery_window sq current next current_cost) ^ params.beta
    + 1 / 1000000

/-- Model of `WeightedIndex::sample`: given the weight list and a draw `u` in
`[0, total)`, return the first index whose cumulative weight exceeds `u`
(the last index when `u` is out of range). -/
def weighted_choose : List ℚ → ℚ → ℕ
  | [], _ => 0
  | [_], _ => 0
  | w :: rest, u => if u < w then 0 else 1 + weighted_choose rest (u - w)

/-- Mirror of `select_next_location` (src/heuristics/aco.rs).  One stream
value is always drawn for the `q0` test; the sampling branch draws one more
for `WeightedIndex::sample`.  Returns the chosen location (if any) and the
new stream position. -/
def select_next_location (sq : ℕ → ℚ) (params : AcoParams) (ph : Pheromones)
    (current : Location) (unvisited : List Location) (current_cost : ℚ)
    (remaining_capacity : ℕ) (rng : ℕ → ℚ) (pos : ℕ) : Option Location × ℕ :=
  if params.q0 ≥ rng pos then
    match find_cheapest_deliverable sq current unvisited current_cost remaining_capacity with
    | none => (none, pos + 1)
    | some (best, _, _) => (some best, pos + 1)
  else
    let reachable_customers :=
      find_deliverable sq current unvisited current_cost remaining_capacity
    if reachable_customers = [] then (none, pos + 1)
    else
      let probabilities := reachable_customers.map
        (fun next => probability_weight sq params ph current next current_cost)
      let total := probabilities.sum
      let probabilities := probabilities.map (fun p => p / total)
      let index := weighted_choose probabilities (rng (pos + 1) * probabilities.sum)
      (reachable_customers[index]?, pos + 2)

/-- The inner `loop` of `Vrp::construct_routes`: repeatedly select a next
location, push it, add `cost_to_deliver` to the running cost (the source
writes `current_cost += current.cost_to_deliver(next_loc, current_cost)`,
which double-counts the running cost), add the demand and remove the first
occurrence of the chosen location from `unvisited`.  `fuel` is called with
`unvisited.length + 1`, which the loop cannot exhaust since every step
removes the chosen customer. -/
def construct_route (sq : ℕ → ℚ) (capacity : ℕ) (params : AcoParams) (ph : Pheromones)
    (rng : ℕ → ℚ) :
    ℕ → Location → ℚ → ℕ → List Location → List Location → ℕ →
      List Location × List Location × ℕ
  | 0, _, _, _, unvisited, routeCs, pos => (routeCs, unvisited, pos)
  | fuel + 1, current, current_cost, total_demand, unvisited, routeCs, pos =>
      match select_next_location sq params ph current unvisited current_cost
          (capacity - total_demand) rng pos with
      | (none, posNext) => (routeCs, unvisited, posNext)
      | (some next_loc, posNext) =>
          construct_route sq capacity params ph rng fuel next_loc
            (current_cost + cost_to_deliver sq current next_loc current_cost)
            ((total_demand + next_loc.demand) % 65536)
            (unvisited.erase next_loc) (routeCs ++ [next_loc]) posNext

/-- The `while` loop of `Vrp::construct_routes`: build a route per vehicle
while unvisited customers remain (possibly leaving customers unassigned when
the fleet-size limit is hit). -/
def construct_loop (sq : ℕ → ℚ) (warehouse : Location) (capacity : ℕ) (params : AcoParams)
    (ph : Pheromones) (rng : ℕ → ℚ) :
    ℕ → List Location → List Route → ℕ → List Route × ℕ
  | 0, _, solution, pos => (solution, pos)
  | vehiclesLeft + 1, unvisited, solution, pos =>
      if unvisited = [] then (solution, pos)
      else
        let step := construct_route sq capacity params ph rng (unvisited.length + 1)
          warehouse 0 0 unvisited [] pos
        construct_loop sq warehouse capacity params ph rng vehiclesLeft
          step.2.1 (solution ++ [⟨warehouse, step.1⟩]) step.2.2

/-- Mirror of `Vrp::construct_routes`: one trial construction over a copy of
the unvisited list, returning the route list and the new stream position. -/
def construct_routes (sq : ℕ → ℚ) (vrp : Vrp) (unvisited : List Location)
    (params : AcoParams) (ph : Pheromones) (rng : ℕ → ℚ) (pos : ℕ) : List Route × ℕ :=
  construct_loop sq vrp.warehouse vrp.vehicle_capacity params ph rng vrp.n_vehicles
    unvisited [] pos

/-- The `(0..params.n_ants).map(|_| construct_routes(..))` collection: the
trials run sequentially against the same borrowed pheromone state, each
consuming the shared random stream. -/
def build_solutions (sq : ℕ → ℚ) (vrp : Vrp) (unvisited : List Location)
    (params : AcoParams) (ph : Pheromones) (rng : ℕ → ℚ) :
    ℕ → ℕ → List (List Route) × ℕ
  | 0, pos => ([], pos)
  | ants + 1, pos =>
      let first := construct_routes sq vrp unvisited params ph rng pos
      let rest := build_solutions sq vrp unvisited params ph rng ants first.2
      (first.1 :: rest.1, rest.2)

/-- The best-tracking loop of `Vrp::aco_heuristic`: each trial's cost is
compared against the best-known cost (`none` models the `f32::INFINITY`
start); a strictly cheaper trial replaces the best and clears the stagnation
counter. -/
def eval_solutions (sq : ℕ → ℚ) :
    List (List Route) → List Route → Option ℚ → ℕ → List Route × Option ℚ × ℕ
  | [], best, bestCost, counter => (best, bestCost, counter)
  | solution :: rest, best, bestCost, counter =>
      let cost := Vrp.total_cost_with sq solution
      let better := match bestCost with
        | none => true
        | some b => cost < b
      if better then eval_solutions sq rest solution (some cost) 0
      else eval_solutions sq rest best bestCost counter

/-- The `for _ in 0..params.max_iter` loop of `Vrp::aco_heuristic`.  The
carried state is the instance (its `routes` field is overwritten on a
stagnation reset), the pheromone map, the best solution and cost, the
stagnation counter and the stream position. -/
def aco_loop (sq : ℕ → ℚ) (params : AcoParams) (amt : ℚ) (unvisited : List Location)
    (rng : ℕ → ℚ) :
    ℕ → Vrp → Pheromones → List Route → Option ℚ → ℕ → ℕ → Option (Vrp × List Route)
  | 0, vrp, _, best, _, _, _ => some (vrp, best)
  | iters + 1, vrp, ph, best, bestCost, counter, pos =>
      let counter := counter + 1
      let built := build_solutions sq vrp unvisited params ph rng params.n_ants pos
      match update_pheromones sq amt best built.1 params ph with
      | none => none
      | some ph =>
          let evaluated := eval_solutions sq built.1 best bestCost counter
          if evaluated.2.2 ≥ params.max_r then
            let vrp := { vrp with routes := evaluated.1 }
            match set_pheromones sq vrp amt ph true with
            | none => none
            | some ph =>
                aco_loop sq params amt unvisited rng iters vrp ph evaluated.1 evaluated.2.1 0
                  built.2
          else
            aco_loop sq params amt unvisited rng iters vrp ph evaluated.1 evaluated.2.1
              evaluated.2.2 built.2

/-- Mirror of `Vrp::aco_heuristic`: initialise the pheromones from the
baseline, iterate construction/update/evaluation/reset, and return the
instance with its routes replaced by the best-known solution. `none` models
a panic inside the run. -/
def aco_heuristic (sq : ℕ → ℚ) (vrp : Vrp) (params : AcoParams) (rng : ℕ → ℚ) :
    Option Vrp :=
  let amt := pheromon_amt sq vrp
  match set_pheromones sq vrp amt (fun _ => 0) false with
  | none => none
  | some ph =>
      match aco_loop sq params amt vrp.customers rng params.max_iter vrp ph [] none 0 0 with
      | none => none
      | some (vrp, best) => some { vrp with routes := best }

/-- Witness model of the abstract square root: the integer square root, cast
to `ℚ`.  It agrees with the correctly rounded `f32` square root on every
perfect square below 2^16 and satisfies `sqA n < m` whenever `n < m * m`. -/
def sqA (n : ℕ) : ℚ := (Nat.sqrt n : ℚ)

/-- A concrete random stream: every draw is 0. -/
def rng0 : ℕ → ℚ := fun _ => 0

/-- A depot at the origin with a generous time window. -/
def depot0 : Location := ⟨0, 0, 0, 0, 0, 1000, 0⟩

/-- Claim C1's route-validity predicate, written from the claim's words:
sequentially apply `arrival_cost` (i.e. `cost_to`) from the depot through
every visit and back to the depot, and at each node compare the arrival time
before that node's waiting and service time are added against its due
date. -/
def claim_check (sq : ℕ → ℚ) (w : Location) : ℚ → Location → List Location → Bool
  | t, prev, [] => decide (t + distance_to sq prev w ≤ (w.due_date : ℚ))
  | t, prev, c :: rest =>
      decide (t + distance_to sq prev c ≤ (c.due_date : ℚ)) &&
        claim_check sq w (cost_to sq prev c t) c rest

/-- Claim C1's full validity predicate: demand within capacity and the
deadline sequence of `claim_check`. -/
def claim_valid (sq : ℕ → ℚ) (r : Route) (capacity : ℕ) : Bool :=
  decide (Route.total_demand r ≤ capacity) && claim_check sq r.warehouse 0 r.warehouse r.customers

/-- The loop of the amended C1 predicate: at each customer the deadline check
compares the output of `cost_to` (arrival plus waiting plus service time),
and afterwards the service time is added once more to the running cost (the
re-added waiting time is always zero at that point). -/
def amended_valid_loop (sq : ℕ → ℚ) (w : Location) : ℚ → Location → List Location → Bool
  | u, c, rest =>
    if u > (c.due_date : ℚ) then false
    else
      let t := u + (c.service_time : ℚ)
      match rest with
      | [] => if cost_to sq c w t > (w.due_date : ℚ) then false else true
      | next :: rest' => amended_valid_loop sq w (cost_to sq c next t) next rest'

/-- The amended C1 validity predicate: demand within capacity, deadline
checks on `cost_to` outputs (service time double-counted), and the final
depot check on the `cost_to` value back into the depot. -/
def amended_valid (sq : ℕ → ℚ) (r : Route) (capacity : ℕ) : Bool :=
  if Route.total_demand r > capacity then false
  else
    match r.customers with
    | [] => true
    | c0 :: rest => amended_valid_loop sq r.warehouse (cost_to sq r.warehouse c0 0) c0 rest

/-- A customer whose due date equals its arrival time but whose service time
is positive: arrival is on time, yet `Route::is_valid` rejects it. -/
def cC1 : Location := ⟨1, 10, 0, 1, 0, 10, 5⟩

/-- The single-customer route used against claim C1. -/
def routeC1 : Route := ⟨depot0, [cC1]⟩

/-- The customer already on the route used against claim C3. -/
def pC3 : Location := ⟨1, 1, 0, 1, 0, 1000, 0⟩

/-- The customer to insert in the C3 scenario. -/
def qC3 : Location := ⟨2, 2, 0, 1, 0, 1000, 0⟩

/-- The single-customer route used against claim C3. -/
def routeC3 : Route := ⟨depot0, [pC3]⟩

/-- The three customers of the spec's concrete greedy scenario (claim C5). -/
def c5a : Location := ⟨1, 5, 0, 5, 0, 100, 0⟩

def c5b : Location := ⟨2, 10, 0, 5, 0, 100, 0⟩

def c5c : Location := ⟨3, 20, 0, 5, 0, 100, 0⟩

/-- The C5 instance: depot at the origin with a generous window, capacity 20,
one vehicle. -/
def vrp5 : Vrp := ⟨[c5a, c5b, c5c], depot0, 1, 20, [], none⟩

/-- The route the greedy heuristic produces on the C5 instance. -/
def route5 : Route := ⟨depot0, [c5a, c5b, c5c]⟩

/-- The single customer of the spec's trivial instance (claims C6, C8, C9). -/
def c6 : Location := ⟨1, 10, 0, 5, 0, 1000, 0⟩

/-- The trivial instance: depot at the origin, one customer at (10,0) with
demand 5, window [0,1000], service time 0, capacity 10 (≥ 5), one
vehicle. -/
def vrp6 : Vrp := ⟨[c6], depot0, 1, 10, [], none⟩

/-- The single route on the trivial instance. -/
def route6 : Route := ⟨depot0, [c6]⟩

/-- Small concrete ACO parameters: one ant, one iteration, exploitation
probability 1 (so the greedy branch is always taken). -/
def params6 : AcoParams := ⟨1, 1, 2, 1, 1, 1/10, 1⟩

/-- A pheromone state whose every entry is 1 (claim C2). -/
def phOne : Pheromones := fun _ => 1

/-- A one-customer route used as best-known solution in the C2 scenario. -/
def routeP : Route := ⟨depot0, [pC3]⟩

/-- The first customer of the C4 instance: demand equal to the full vehicle
capacity. -/
def c41 : Location := ⟨1, 1, 0, 10, 0, 1000, 0⟩

/-- The second customer of the C4 instance; it can never share a vehicle with
`c41`. -/
def c42 : Location := ⟨2, 2, 0, 10, 0, 1000, 0⟩

/-- The C4 instance: two capacity-filling customers but only one vehicle, so
full coverage is impossible. -/
def vrp4 : Vrp := ⟨[c41, c42], depot0, 1, 10, [], none⟩

/-- The incomplete route the single vehicle of `vrp4` gets. -/
def route4 : Route := ⟨depot0, [c41]⟩

/-- ACO parameters for the C4 run: one ant, one iteration, full
exploitation. -/
def params4 : AcoParams := ⟨1, 1, 5, 1, 1, 1/10, 1⟩

/-- A second concrete random stream with every draw 1/2. -/
def rngHalf : ℕ → ℚ := fun _ => 1/2

/-- Two distinct locations sharing the same coordinates with zero ready time
(claim C7). -/
def locA : Location := ⟨1, 3, 3, 1, 0, 1000, 0⟩

def locB : Location := ⟨2, 3, 3, 1, 0, 1000, 0⟩

/-- Two locations whose x-coordinates differ by exactly 256 (claim C10): the
squared difference is 2^16 and wraps to 0. -/
def locWrapA : Location := ⟨1, 0, 0, 0, 0, 1000, 0⟩

def locWrapB : Location := ⟨2, 256, 0, 0, 0, 1000, 0⟩

/- ----------------------------------------------------------------- -/
/- Theorems                                                          -/
/- ----------------------------------------------------------------- -/

/-- The abstract square-root model is exact on perfect squares. -/
theorem sqA_mul_self (m : ℕ) : sqA (m * m) = (m : ℚ) := by
  simp [sqA, Nat.sqrt_eq]

/-- Concrete evaluation lemmas for `sqA`, used to run the algorithms on the
concrete instances (all distances there are perfect squares). -/
theorem sqA_zero : sqA 0 = 0 := by
  simpa using sqA_mul_self 0

theorem sqA_one : sqA 1 = 1 := by
  simpa using sqA_mul_self 1

theorem sqA_four : sqA 4 = 2 := by
  simpa using sqA_mul_self 2

theorem sqA_twentyfive : sqA 25 = 5 := by
  simpa using sqA_mul_self 5

theorem sqA_hundred : sqA 100 = 10 := by
  simpa using sqA_mul_self 10

theorem sqA_225 : sqA 225 = 15 := by
  simpa using sqA_mul_self 15

theorem sqA_400 : sqA 400 = 20 := by
  simpa using sqA_mul_self 20

/-- The ready time of the destination never exceeds the output of
`cost_to`. -/
theorem ready_le_cost_to (sq : ℕ → ℚ) (a b : Location) (t : ℚ) :
    (b.ready_time : ℚ) ≤ cost_to sq a b t := by
  have hc : cost_to sq a b t
      = t + distance_to sq a b
        + max ((b.ready_time : ℚ) - (t + distance_to sq a b)) 0 + (b.service_time : ℚ) := rfl
  rw [hc]
  have hs : (0 : ℚ) ≤ (b.service_time : ℚ) := Nat.cast_nonneg _
  rcases le_total ((b.ready_time : ℚ)) (t + distance_to sq a b) with h | h
  · have hmax : (0 : ℚ) ≤ max ((b.ready_time : ℚ) - (t + distance_to sq a b)) 0 :=
      le_max_right _ _
    linarith
  · have hmax : ((b.ready_time : ℚ) - (t + distance_to sq a b)) ≤
        max ((b.ready_time : ℚ) - (t + distance_to sq a b)) 0 := le_max_left _ _
    linarith

/-- The validity loop of the source equals the amended loop whenever the
running cost is at least the current customer's ready time (which `cost_to`
guarantees): the waiting time re-added after the deadline check is zero. -/
theorem is_valid_loop_eq_amended (sq : ℕ → ℚ) (w : Location) :
    ∀ (rest : List Location) (c : Location) (u : ℚ),
      (c.ready_time : ℚ) ≤ u →
      is_valid_loop sq w u c rest = amended_valid_loop sq w u c rest := by
  intro rest
  induction rest with
  | nil =>
      intro c u hu
      unfold is_valid_loop amended_valid_loop
      have hmax : max ((c.ready_time : ℚ) - u) 0 = 0 :=
        max_eq_right (by linarith)
      simp only [hmax, add_zero]
  | cons next rest ih =>
      intro c u hu
      unfold is_valid_loop amended_valid_loop
      have hmax : max ((c.ready_time : ℚ) - u) 0 = 0 :=
        max_eq_right (by linarith)
      simp only [hmax, add_zero]
      by_cases hdue : u > (c.due_date : ℚ)
      · simp [hdue]
      · simp only [hdue, if_false]
        exact ih next (cost_to sq c next (u + (c.service_time : ℚ)))
          (ready_le_cost_to sq c next _)

/-- Claim C1 (amended): `Route::is_valid` holds iff the demand fits the
capacity and the sequential deadline checks pass, where each customer's check
compares the `cost_to` output (arrival plus waiting plus service time) to
its due date, the service time is then added a second time to the running
cost, and the final check compares the `cost_to` value back into the depot
against the depot's due date. -/
theorem is_valid_eq_amended_valid (sq : ℕ → ℚ) (r : Route) (capacity : ℕ) :
    Route.is_valid sq r capacity = amended_valid sq r capacity := by
  unfold Route.is_valid amended_valid
  by_cases hd : Route.total_demand r > capacity
  · simp [hd]
  · simp only [hd, if_false]
    cases hc : r.customers with
    | nil => rfl
    | cons c0 rest =>
        exact is_valid_loop_eq_amended sq r.warehouse rest c0 _
          (ready_le_cost_to sq r.warehouse c0 0)

/-- Claim C1 (counterexample): on a route whose single customer is reached
exactly at its due date but has positive service time, the claim's predicate
(deadline checked on the arrival time before waiting and service) accepts
the route while `Route::is_valid` rejects it, because the source checks the
`cost_to` output, which already includes that customer's waiting and service
time. -/
theorem is_valid_deadline_check_counterexample :
    Route.is_valid sqA routeC1 10 = false ∧ claim_valid sqA routeC1 10 = true := by
  constructor
  · norm_num [Route.is_valid, routeC1, cC1, depot0, Route.total_demand, is_valid_loop,
      cost_to, distance_to, Nat.dist, sqA_hundred, sqA_zero]
  · norm_num [claim_valid, claim_check, routeC1, cC1, depot0, Route.total_demand,
      cost_to, distance_to, Nat.dist, sqA_hundred, sqA_zero]

/-- `Route::total_cost_with` panics (models to `none`) whenever the passed
customer array is longer than the route's own customer list, since the final
leg indexes `self.customers[customers.len() - 1]`. -/
theorem total_cost_with_overlong (sq : ℕ → ℚ) (r : Route) (cs : List Location)
    (h : r.customers.length < cs.length) :
    Route.total_cost_with sq r cs = none := by
  cases cs with
  | nil => rfl
  | cons c0 tl =>
      have hnone : r.customers[(c0 :: tl).length - 1]? = none := by
        apply List.getElem?_eq_none
        simp only [List.length_cons] at h ⊢
        omega
      simp only [Route.total_cost_with, hnone, Option.map_none']

/-- Inserting a customer at any index yields a list one longer than the
original. -/
theorem insert_list_length (l : List Location) (c : Location) (i : ℕ) :
    (l.take i ++ c :: l.drop i).length = l.length + 1 := by
  simp only [List.length_append, List.length_take, List.length_cons, List.length_drop]
  omega

/-- The loop of `Route::try_insert`, started with the infinity sentinel,
either panics or ends with the sentinel untouched: a valid insertion position
leads straight into the out-of-bounds panic of `total_cost_with`. -/
theorem try_insert_loop_no_index (sq : ℕ → ℚ) (r : Route) (c : Location) (cap : ℕ) :
    ∀ idxs : List ℕ,
      try_insert_loop sq r c cap idxs none = none ∨
        try_insert_loop sq r c cap idxs none = some none := by
  intro idxs
  induction idxs with
  | nil => right; rfl
  | cons i rest ih =>
      by_cases hv : Route.is_valid_with sq r (r.customers.take i ++ c :: r.customers.drop i) cap
        = false
      · simpa only [try_insert_loop, hv, if_true] using ih
      · left
        have hcost : Route.total_cost_with sq r (r.customers.take i ++ c :: r.customers.drop i)
            = none :=
          total_cost_with_overlong sq r _ (by rw [insert_list_length]; omega)
        simp only [try_insert_loop, hv, if_false, hcost]
        simp

/-- Claim C3 (code bug): `Route::try_insert` can never return an insertion
index.  It evaluates only the positions strictly before each existing
customer (so an empty route always yields `None`), and as soon as a position
passes the validity check the call to `total_cost_with` panics on the
out-of-bounds read `self.customers[customers.len() - 1]` (the new array is
one longer than the route's own list).  Concretely, inserting `qC3` into the
one-customer route `routeC3` panics even though the insertion at position 0
would be valid. -/
theorem try_insert_never_returns_index :
    Route.try_insert sqA routeC3 qC3 10 = none ∧
      Route.is_valid_with sqA routeC3 [qC3, pC3] 10 = true ∧
      ∀ (sq : ℕ → ℚ) (r : Route) (c : Location) (cap : ℕ),
        Route.try_insert sq r c cap = none ∨ Route.try_insert sq r c cap = some none := by
  refine ⟨?_, ?_, ?_⟩
  · norm_num [Route.try_insert, try_insert_loop, routeC3, pC3, qC3, depot0,
      List.range_succ, Route.is_valid_with, Route.total_demand_with, is_valid_loop,
      Route.total_cost_with, cost_to, cost_to_deliver, distance_to, Nat.dist,
      sqA_zero, sqA_one, sqA_four]
  · norm_num [Route.is_valid_with, Route.total_demand_with, is_valid_loop, routeC3,
      pC3, qC3, depot0, cost_to, distance_to, Nat.dist, sqA_zero, sqA_one, sqA_four]
  · intro sq r c cap
    exact try_insert_loop_no_index sq r c cap _

/-- Claim C5 (amended): on the concrete scenario the greedy heuristic visits
the customers in the claimed order (5,0), (10,0), (20,0), but the total
distance of the produced route, which includes the return leg to the depot,
is 40, not 20. -/
theorem nearest_neighbour_concrete_order_and_distance :
    (nearest_neighbour_heuristic sqA vrp5).map (fun res => res.routes) = some [route5] ∧
      Route.total_distance sqA route5 = 40 := by
  constructor
  · norm_num [nearest_neighbour_heuristic, nn_loop, nn_build_route,
      find_cheapest_deliverable, find_deliverable, find_reachable, rustMinBy, cmpQ,
      cost_to, distance_to, Nat.dist, vrp5, c5a, c5b, c5c, depot0, route5,
      from_vrp, Vrp.to_result, List.filter,
      sqA_zero, sqA_twentyfive, sqA_hundred, sqA_225, sqA_400]
    simp
  · norm_num [Route.total_distance, Route.stops, route5, c5a, c5b, c5c, depot0,
      distance_to, Nat.dist, sqA_zero, sqA_twentyfive, sqA_hundred, sqA_225, sqA_400]

/-- Claim C5 (counterexample): the route the greedy heuristic produces on the
concrete scenario has total distance 40 (the claimed 20 counts only the
outbound legs and omits the return leg to the depot). -/
theorem nearest_neighbour_distance_counterexample :
    (nearest_neighbour_heuristic sqA vrp5).map (fun res => res.routes) = some [route5] ∧
      ¬ Route.total_distance sqA route5 = 20 := by
  constructor
  · norm_num [nearest_neighbour_heuristic, nn_loop, nn_build_route,
      find_cheapest_deliverable, find_deliverable, find_reachable, rustMinBy, cmpQ,
      cost_to, distance_to, Nat.dist, vrp5, c5a, c5b, c5c, depot0, route5,
      from_vrp, Vrp.to_result, List.filter,
      sqA_zero, sqA_twentyfive, sqA_hundred, sqA_225, sqA_400]
    simp
  · norm_num [Route.total_distance, Route.stops, route5, c5a, c5b, c5c, depot0,
      distance_to, Nat.dist, sqA_zero, sqA_twentyfive, sqA_hundred, sqA_225, sqA_400]

/-- Claim C6 (counterexample): on the trivial instance the produced route's
total cost is 20 — both legs of the round trip — not the claimed 10. -/
theorem trivial_instance_total_cost_counterexample :
    (nearest_neighbour_heuristic sqA vrp6).map (fun res => res.routes) = some [route6] ∧
      Route.total_cost sqA route6 = 20 ∧ ¬ ((20 : ℚ) = 10) := by
  refine ⟨?_, ?_, by norm_num⟩
  · norm_num [nearest_neighbour_heuristic, nn_loop, nn_build_route,
      find_cheapest_deliverable, find_deliverable, find_reachable, rustMinBy, cmpQ,
      cost_to, distance_to, Nat.dist, vrp6, c6, depot0, route6,
      from_vrp, Vrp.to_result, List.filter, sqA_zero, sqA_hundred]
  · norm_num [Route.total_cost, Route.stops, route6, c6, depot0, cost_to_deliver,
      distance_to, Nat.dist, sqA_zero, sqA_hundred]

/-- Claim C6 (amended): on the trivial instance both the greedy heuristic and
the ACO engine (run with one ant, one iteration and full exploitation on the
all-zero stream) produce the single route depot → customer → depot; the route
is reported valid, and its total cost is 20, i.e. twice
`distance((0,0),(10,0))`, since `total_cost` accumulates both legs. -/
theorem trivial_instance_route_and_cost :
    (nearest_neighbour_heuristic sqA vrp6).map (fun res => res.routes) = some [route6] ∧
      Route.total_cost sqA route6 = 20 ∧
      Route.is_valid sqA route6 10 = true ∧
      (aco_heuristic sqA vrp6 params6 rng0).map (fun v => v.routes) = some [route6] := by
  refine ⟨?_, ?_, ?_, ?_⟩
  · norm_num [nearest_neighbour_heuristic, nn_loop, nn_build_route,
      find_cheapest_deliverable, find_deliverable, find_reachable, rustMinBy, cmpQ,
      cost_to, distance_to, Nat.dist, vrp6, c6, depot0, route6,
      from_vrp, Vrp.to_result, List.filter, sqA_zero, sqA_hundred]
  · norm_num [Route.total_cost, Route.stops, route6, c6, depot0, cost_to_deliver,
      distance_to, Nat.dist, sqA_zero, sqA_hundred]
  · norm_num [Route.is_valid, Route.total_demand, is_valid_loop, route6, c6, depot0,
      cost_to, distance_to, Nat.dist, sqA_zero, sqA_hundred]
  · norm_num [aco_heuristic, pheromon_amt, set_pheromones, aco_loop, build_solutions,
      construct_routes, construct_loop, construct_route, select_next_location,
      find_cheapest_deliverable, find_deliverable, find_reachable, rustMinBy, cmpQ,
      update_pheromones, penalize_solutions, decay_bump_routes, route_edges,
      route_edges.chain, eval_solutions, Vrp.total_cost_with, Route.total_cost,
      Route.stops, cost_to_deliver, cost_to, distance_to, Nat.dist, List.filter,
      vrp6, c6, depot0, route6, params6, rng0, sqA_zero, sqA_hundred]

/-- Folding decayed deposits over a list of edges leaves every other entry
untouched. -/
theorem foldl_decay_bump_unchanged (rho dep : ℚ) (e : Location × Location) :
    ∀ (es : List (Location × Location)) (ph : Pheromones), e ∉ es →
      (es.foldl (fun p e' => decay_bump_edge p e' rho dep) ph) e = ph e := by
  intro es
  induction es with
  | nil => intro ph _; rfl
  | cons e' rest ih =>
      intro ph he
      have hne : e ≠ e' := fun h => he (h ▸ List.mem_cons_self e' rest)
      have hrest : e ∉ rest := fun h => he (List.mem_cons_of_mem e' h)
      rw [List.foldl_cons, ih _ hrest]
      simp [decay_bump_edge, hne]

/-- `decay_bump_routes` leaves an entry untouched when its edge is used by
none of the listed routes. -/
theorem decay_bump_routes_unchanged (rho dep : ℚ) (e : Location × Location) :
    ∀ (routes : List Route) (ph ph' : Pheromones),
      decay_bump_routes rho dep routes ph = some ph' →
      e ∉ (routes.map (fun r => (route_edges r).getD [])).flatten →
      ph' e = ph e := by
  intro routes
  induction routes with
  | nil =>
      intro ph ph' h _
      simp only [decay_bump_routes, Option.some_inj] at h
      rw [← h]
  | cons r rs ih =>
      intro ph ph' h hmem
      cases hre : route_edges r with
      | none => rw [decay_bump_routes, hre] at h; exact absurd h (by simp)
      | some es =>
          rw [decay_bump_routes, hre] at h
          have hes : e ∉ es := by
            intro hin
            apply hmem
            simp only [List.map_cons, List.flatten_cons, List.mem_append]
            exact Or.inl (by rw [hre]; simpa using hin)
          have hrs : e ∉ (rs.map (fun r => (route_edges r).getD [])).flatten := by
            intro hin
            apply hmem
            simp only [List.map_cons, List.flatten_cons, List.mem_append]
            exact Or.inr hin
          rw [ih _ _ h hrs]
          exact foldl_decay_bump_unchanged rho dep e es ph hes

/-- The penalty phase of `update_pheromones` leaves an entry untouched when
its edge is used by none of the trial solutions. -/
theorem penalize_unchanged (rho deposit : ℚ) (e : Location × Location) :
    ∀ (sols : List (List Route)) (ph ph' : Pheromones),
      penalize_solutions rho deposit sols ph = some ph' →
      e ∉ used_edges sols →
      ph' e = ph e := by
  intro sols
  induction sols with
  | nil =>
      intro ph ph' h _
      simp only [penalize_solutions, Option.some_inj] at h
      rw [← h]
  | cons sol rest ih =>
      intro ph ph' h hmem
      rw [penalize_solutions] at h
      cases hd : decay_bump_routes rho deposit sol ph with
      | none => rw [hd] at h; exact absurd h (by simp)
      | some phMid =>
          rw [hd] at h
          have hsol : e ∉ (sol.map (fun r => (route_edges r).getD [])).flatten := by
            intro hin
            apply hmem
            simp only [used_edges, List.map_cons, List.flatten_cons, List.mem_append]
            exact Or.inl hin
          have hrest : e ∉ used_edges rest := by
            intro hin
            apply hmem
            simp only [used_edges, List.map_cons, List.flatten_cons, List.mem_append]
            simp only [used_edges] at hin
            exact Or.inr hin
          rw [ih _ _ h hrest]
          exact decay_bump_routes_unchanged rho deposit e sol ph phMid hd hsol

/-- Claim C2 (amended): `update_pheromones` performs no global evaporation
pass.  It applies `p ← (1 − rho)·p + rho / cost_ns(best)` to each edge of the
best-known solution and then `p ← (1 − rho)·p + rho · baseline` to each edge
of each trial solution (with multiplicity, in that order); an entry whose
edge is used neither by the best-known solution nor by any trial is left
exactly unchanged, not multiplied by `(1 − rho)`. -/
theorem update_pheromones_unused_edge_unchanged (sq : ℕ → ℚ) (amt : ℚ)
    (best : List Route) (sols : List (List Route)) (params : AcoParams)
    (ph ph' : Pheromones) (e : Location × Location)
    (hrun : update_pheromones sq amt best sols params ph = some ph')
    (hunused : e ∉ used_edges (best :: sols)) :
    ph' e = ph e := by
  have hbest : e ∉ (best.map (fun r => (route_edges r).getD [])).flatten := by
    intro hin
    apply hunused
    simp only [used_edges, List.map_cons, List.flatten_cons, List.mem_append]
    exact Or.inl hin
  have hsols : e ∉ used_edges sols := by
    intro hin
    apply hunused
    simp only [used_edges, List.map_cons, List.flatten_cons, List.mem_append]
    simp only [used_edges] at hin
    exact Or.inr hin
  rw [update_pheromones] at hrun
  cases hd : decay_bump_routes params.rho
      (params.rho / Vrp.total_cost_no_service_time_with sq best) best ph with
  | none => rw [hd] at hrun; exact absurd hrun (by simp)
  | some phMid =>
      rw [hd] at hrun
      rw [penalize_unchanged params.rho (params.rho * amt) e sols phMid ph' hrun hsols]
      exact decay_bump_routes_unchanged _ _ e best ph phMid hd hbest

/-- Claim C2 (counterexample): one `update_pheromones` call with `rho = 1/10`,
best solution `[routeP]` and no trials leaves the entry of the unused edge
`(pC3, qC3)` at its previous value 1 instead of the claimed
`(1 − rho) · 1 = 9/10`. -/
theorem update_pheromones_unused_edge_counterexample :
    (update_pheromones sqA 1 [routeP] [] params6 phOne).map (fun f => f (pC3, qC3))
      = some 1 ∧
      ¬ ((1 : ℚ) = (1 - params6.rho) * 1) := by
  constructor
  · norm_num [update_pheromones, penalize_solutions, decay_bump_routes,
      route_edges, route_edges.chain, decay_bump_edge, routeP, pC3, qC3, depot0, phOne,
      params6, Prod.ext_iff]
  · norm_num [params6]

/-- Witness for the amended C2 theorem: a concrete update with a nonempty
best solution and one trial, evaluated at the unused edge `(qC3, pC3)`. -/
theorem update_pheromones_unused_edge_unchanged_witness :
    (update_pheromones sqA 1 [routeP] [[routeP]] params6 phOne).map
      (fun f => f (qC3, pC3)) = some 1 := by
  cases h : update_pheromones sqA 1 [routeP] [[routeP]] params6 phOne with
  | none =>
      exfalso
      rw [update_pheromones] at h
      norm_num [penalize_solutions, decay_bump_routes, route_edges,
        route_edges.chain, routeP, pC3, depot0] at h
      exact Option.some_ne_none _ h
  | some f =>
      have hval := update_pheromones_unused_edge_unchanged sqA 1 [routeP] [[routeP]]
        params6 phOne f (qC3, pC3) h (by decide)
      simp only [h, Option.map_some', hval, phOne]

/-- When the `q0` test succeeds, `select_next_location` is the pure greedy
choice and consumes exactly one stream value. -/
theorem select_q0_hit {sq : ℕ → ℚ} {params : AcoParams} {ph : Pheromones}
    {current : Location} {unvisited : List Location} {current_cost : ℚ}
    {remaining_capacity : ℕ} {rng : ℕ → ℚ} {pos : ℕ}
    (h : params.q0 ≥ rng pos) :
    select_next_location sq params ph current unvisited current_cost remaining_capacity
        rng pos =
      (match find_cheapest_deliverable sq current unvisited current_cost
          remaining_capacity with
      | none => (none, pos + 1)
      | some (best, _, _) => (some best, pos + 1)) := by
  simp only [select_next_location, if_pos h]

/-- Projection values of `params4`, kept as rewrite rules so that `params4`
itself can stay folded while the `select_q0_hit` rewrite fires. -/
theorem params4_n_ants : params4.n_ants = 1 := rfl

theorem params4_max_iter : params4.max_iter = 1 := rfl

theorem params4_max_r : params4.max_r = 5 := rfl

theorem params4_rho : params4.rho = 1/10 := rfl

theorem params4_q0_val : params4.q0 = 1 := rfl

/-- Claim C4 (amended): on the two-customer instance with one vehicle and
capacity for only one of them, every full-exploitation run of the engine
(any unit-interval stream) ends with the incomplete solution `[route4]`
adopted as best-known and installed as the instance's routes: the second
customer is silently left unassigned, with no distinct infeasible-coverage
state. -/
theorem aco_adopts_incomplete_solution (rng : ℕ → ℚ)
    (h : ∀ n, 0 ≤ rng n ∧ rng n < 1) :
    (aco_heuristic sqA vrp4 params4 rng).map (fun v => v.routes) = some [route4] ∧
      c42 ∈ vrp4.customers ∧ c42 ∉ route4.customers := by
  have h0 : params4.q0 ≥ rng 0 := by
    have := (h 0).2
    rw [params4_q0_val]
    linarith
  have h1 : params4.q0 ≥ rng 1 := by
    have := (h 1).2
    rw [params4_q0_val]
    linarith
  refine ⟨?_, by norm_num [vrp4], by norm_num [route4, c41, c42]⟩
  norm_num [aco_heuristic, pheromon_amt, set_pheromones, aco_loop, build_solutions,
    construct_routes, construct_loop, construct_route, select_q0_hit h0, select_q0_hit h1,
    find_cheapest_deliverable, find_deliverable, find_reachable, rustMinBy, cmpQ,
    update_pheromones, penalize_solutions, decay_bump_routes, route_edges,
    route_edges.chain, eval_solutions, Vrp.total_cost_with, Route.total_cost,
    Route.stops, cost_to_deliver, cost_to, distance_to, Nat.dist, List.filter,
    vrp4, c41, c42, depot0, route4, params4_n_ants, params4_max_iter, params4_max_r,
    params4_rho, sqA_zero, sqA_one, sqA_four]
  simp

/-- Claim C4 (counterexample): a concrete full-exploitation run on the
two-customer, one-vehicle instance returns `[route4]` as its final best-known
solution even though customer `c42` is not served by any returned route —
the incomplete trial was evaluated by cost like any complete solution and
adopted, with no infeasible-coverage signal. -/
theorem aco_adopts_incomplete_solution_counterexample :
    (aco_heuristic sqA vrp4 params4 rng0).map (fun v => v.routes) = some [route4] ∧
      c42 ∈ vrp4.customers ∧ (∀ r ∈ [route4], c42 ∉ r.customers) := by
  refine ⟨?_, by norm_num [vrp4], ?_⟩
  · norm_num [aco_heuristic, pheromon_amt, set_pheromones, aco_loop, build_solutions,
      construct_routes, construct_loop, construct_route, select_next_location,
      find_cheapest_deliverable, find_deliverable, find_reachable, rustMinBy, cmpQ,
      update_pheromones, penalize_solutions, decay_bump_routes, route_edges,
      route_edges.chain, eval_solutions, Vrp.total_cost_with, Route.total_cost,
      Route.stops, cost_to_deliver, cost_to, distance_to, Nat.dist, List.filter,
      vrp4, c41, c42, depot0, route4, params4, rng0, sqA_zero, sqA_one, sqA_four]
    simp
  · intro r hr
    simp only [List.mem_singleton] at hr
    subst hr
    norm_num [route4, c41, c42]

/-- Witness for the amended C4 theorem: the all-1/2 stream lies in the unit
interval, and the theorem applies to it. -/
theorem aco_adopts_incomplete_solution_witness :
    (aco_heuristic sqA vrp4 params4 rngHalf).map (fun v => v.routes) = some [route4] ∧
      c42 ∈ vrp4.customers ∧ c42 ∉ route4.customers :=
  aco_adopts_incomplete_solution rngHalf (fun n => by norm_num [rngHalf])

/-- Claim C7 (amended): no clamping guards the desirability reciprocal.  The
value fed to it is `cost_to_delivery_window`, which is exactly 0 whenever the
two (distinct) locations share coordinates, the destination's ready time is
0 and the current cost is 0. -/
theorem desirability_zero_cost_unclamped (sq : ℕ → ℚ) (a b : Location)
    (hs : sq 0 = 0) (hx : a.x = b.x) (hy : a.y = b.y) (hr : b.ready_time = 0) :
    cost_to_delivery_window sq a b 0 = 0 := by
  have hd : distance_to sq a b = 0 := by
    unfold distance_to
    rw [hx, hy]
    simpa [Nat.dist_self] using hs
  unfold cost_to_delivery_window
  rw [hd, hr]
  norm_num

/-- Claim C7 (counterexample): the two distinct locations `locA` and `locB`
share coordinates and `locB` passes the deliverable filter from `locA` at
cost 0, so its probability weight divides by `cost_to_delivery_window = 0`:
the reciprocal's argument is not clamped to any positive minimum. -/
theorem desirability_no_clamp_counterexample :
    cost_to_delivery_window sqA locA locB 0 = 0 ∧
      locA ≠ locB ∧
      locB ∈ find_deliverable sqA locA [locB] 0 5 := by
  refine ⟨?_, by norm_num [locA, locB], ?_⟩
  · norm_num [cost_to_delivery_window, distance_to, Nat.dist, locA, locB, sqA_zero]
  · norm_num [find_deliverable, find_reachable, List.filter, distance_to, Nat.dist,
      locA, locB, sqA_zero]

/-- Witness for the amended C7 theorem, instantiated at the concrete
same-coordinate pair. -/
theorem desirability_zero_cost_unclamped_witness :
    cost_to_delivery_window sqA locA locB 0 = 0 :=
  desirability_zero_cost_unclamped sqA locA locB sqA_zero rfl rfl rfl

/-- Claim C8 (confirmed): with the random source made explicit as a stream of
draws, the engine is a pure function of the instance, the parameters and the
stream: two runs over pointwise-equal streams return identical results, in
particular identical route lists and identical total cost. -/
theorem aco_heuristic_deterministic (sq : ℕ → ℚ) (vrp : Vrp) (params : AcoParams)
    (r1 r2 : ℕ → ℚ) (h : ∀ n, r1 n = r2 n) :
    aco_heuristic sq vrp params r1 = aco_heuristic sq vrp params r2 ∧
      (aco_heuristic sq vrp params r1).map (fun v => v.routes)
        = (aco_heuristic sq vrp params r2).map (fun v => v.routes) ∧
      (aco_heuristic sq vrp params r1).map (Vrp.total_cost sq)
        = (aco_heuristic sq vrp params r2).map (Vrp.total_cost sq) := by
  have heq : r1 = r2 := funext h
  subst heq
  exact ⟨rfl, rfl, rfl⟩

/-- Witness for the C8 theorem: two syntactically different all-zero streams
give identical results on the trivial instance. -/
theorem aco_heuristic_deterministic_witness :
    aco_heuristic sqA vrp6 params6 rng0 = aco_heuristic sqA vrp6 params6 (fun _ => 0) ∧
      (aco_heuristic sqA vrp6 params6 rng0).map (fun v => v.routes)
        = (aco_heuristic sqA vrp6 params6 (fun _ => 0)).map (fun v => v.routes) ∧
      (aco_heuristic sqA vrp6 params6 rng0).map (Vrp.total_cost sqA)
        = (aco_heuristic sqA vrp6 params6 (fun _ => 0)).map (Vrp.total_cost sqA) :=
  aco_heuristic_deterministic sqA vrp6 params6 rng0 (fun _ => 0) (fun _ => rfl)

/-- Claim C9 (confirmed): `nearest_neighbour_heuristic` takes its receiver by
shared reference, so the embedding is a pure function of the instance; the
constructed routes live only in the returned `VrpResult` (built by
`from_vrp`, which copies the instance's fleet parameters), and an
`aco_heuristic` run on the same untouched instance still sees `routes = []`
and computes the constant `1/4500` pheromone baseline instead of deriving it
from the construction solution's cost. -/
theorem nearest_neighbour_frame_and_pheromone_baseline (sq : ℕ → ℚ) (vrp : Vrp)
    (res : VrpResult) (hrun : nearest_neighbour_heuristic sq vrp = some res)
    (hempty : vrp.routes = []) :
    res.n_vehicles = vrp.n_vehicles ∧ res.vehicle_capacity = vrp.vehicle_capacity ∧
      res.heuristic_cost_history = none ∧ pheromon_amt sq vrp = 1 / 4500 := by
  unfold nearest_neighbour_heuristic at hrun
  obtain ⟨routes, hloop, hres⟩ := Option.map_eq_some'.mp hrun
  refine ⟨?_, ?_, ?_, ?_⟩
  · rw [← hres]; rfl
  · rw [← hres]; rfl
  · rw [← hres]; rfl
  · simp [pheromon_amt, hempty]

/-- Witness for the C9 theorem: the trivial instance has no routes, its
greedy run succeeds, and the baseline branch yields `1/4500`. -/
theorem nearest_neighbour_frame_and_pheromone_baseline_witness :
    pheromon_amt sqA vrp6 = 1 / 4500 := by
  cases h : nearest_neighbour_heuristic sqA vrp6 with
  | none =>
      exfalso
      norm_num [nearest_neighbour_heuristic, nn_loop, nn_build_route,
        find_cheapest_deliverable, find_deliverable, find_reachable, rustMinBy, cmpQ,
        cost_to, distance_to, Nat.dist, vrp6, c6, depot0, from_vrp, Vrp.to_result,
        List.filter, sqA_zero, sqA_hundred] at h
      exact Option.some_ne_none _ h
  | some res =>
      exact (nearest_neighbour_frame_and_pheromone_baseline sqA vrp6 res h rfl).2.2.2

/-- The integer-square-root model satisfies the strict-bound property of the
`f32` square root on this range. -/
theorem sqA_lt (n m : ℕ) (h : n < m * m) : sqA n < (m : ℚ) := by
  unfold sqA
  exact_mod_cast Nat.sqrt_lt.mpr h

/-- Claim C10 (confirmed): `distance_to` squares and sums the coordinate
differences in `u16` arithmetic, so (i) when the true squared distance is
below 2^16 the square root receives it unwrapped; (ii) when a perfect square
`m * m ≥ 2^16` is the true squared distance, the wrapped value is strictly
below `m * m`, so the result is strictly below the true distance `m`; and
(iii) for the concrete pair differing by exactly 256 in x the intermediate
wraps to 0 and the distance comes out 0 instead of 256. -/
theorem distance_to_wraps_mod_u16 (sq : ℕ → ℚ)
    (hsq : ∀ m : ℕ, sq (m * m) = (m : ℚ))
    (hlt : ∀ n m : ℕ, n < m * m → sq n < (m : ℚ)) :
    (∀ a b : Location,
        Nat.dist b.x a.x ^ 2 + Nat.dist b.y a.y ^ 2 < 65536 →
        distance_to sq a b = sq (Nat.dist b.x a.x ^ 2 + Nat.dist b.y a.y ^ 2)) ∧
      (∀ a b : Location, ∀ m : ℕ,
        Nat.dist b.x a.x ^ 2 + Nat.dist b.y a.y ^ 2 = m * m →
        65536 ≤ m * m →
        distance_to sq a b < (m : ℚ)) ∧
      (distance_to sq locWrapA locWrapB = 0 ∧ ¬ ((0 : ℚ) = 256)) := by
  refine ⟨?_, ?_, ?_, by norm_num⟩
  · intro a b h
    unfold distance_to
    congr 1
    omega
  · intro a b m hm hge
    unfold distance_to
    apply hlt
    have harg : (Nat.dist b.x a.x ^ 2 % 65536 + Nat.dist b.y a.y ^ 2 % 65536) % 65536
        < 65536 := Nat.mod_lt _ (by norm_num)
    omega
  · show distance_to sq locWrapA locWrapB = 0
    unfold distance_to
    have harg : (Nat.dist locWrapB.x locWrapA.x ^ 2 % 65536
        + Nat.dist locWrapB.y locWrapA.y ^ 2 % 65536) % 65536 = 0 := by
      norm_num [locWrapA, locWrapB, Nat.dist]
    rw [harg]
    simpa using hsq 0

/-- Witness for the C10 theorem, instantiated with the integer-square-root
model: the wrapped pair comes out at distance 0, while an unwrapped pair
(coordinate difference 10) keeps its true distance. -/
theorem distance_to_wraps_mod_u16_witness :
    distance_to sqA locWrapA locWrapB = 0 ∧ distance_to sqA depot0 c6 = 10 := by
  have main := distance_to_wraps_mod_u16 sqA sqA_mul_self sqA_lt
  constructor
  · exact main.2.2.1
  · have h := main.1 depot0 c6 (by norm_num [depot0, c6, Nat.dist])
    rw [h]
    norm_num [depot0, c6, Nat.dist]
    simpa using sqA_hundred

end Solomon
